import Mathlib

/-! Verification of `src/App.js`.

A shallow embedding of the single React component `App`: its five state cells
(`posts`, `favorites`, `loading`, `error`, `showFavorites`), the device key-value
store it reads and writes, the console it logs to, and the operations
`fetchPosts`, `loadFavorites`, `saveFavorites`, `toggleFavorite`, `toggleView`
together with the screen the component returns.

Asynchronous operations are embedded as state transformers that take the outcome
of the awaited call (HTTP response, storage read, storage write) as an argument;
the part of `fetchPosts` that runs before its `await` is a transformer of its own.
-/

namespace App

/-! ## Data model -/

/-- A post record; the component reads the fields `id`, `title` and `body`. -/
structure Post where
  id : Int
  title : String
  body : String
deriving DecidableEq

/-- The five `useState` cells of `App` (lines 7-11). `error` is `null` or a string. -/
structure ViewState where
  posts : List Post
  favorites : List Post
  loading : Bool
  error : Option String
  showFavorites : Bool
deriving DecidableEq

/-- AsyncStorage: string keys to string values, most recent binding first. -/
abbrev Storage := List (String × String)

/-- Everything the component can read or change: its state cells, the device store
and the lines written with `console.error`. -/
structure World where
  view : ViewState
  storage : Storage
  console : List String
deriving DecidableEq

/-- The state cells at their `useState` initial values (lines 7-11). -/
def initialView : ViewState :=
  { posts := [], favorites := [], loading := true, error := none, showFavorites := false }

/-- The world at mount, over a given device store. -/
def initialWorld (storage : Storage) : World :=
  { view := initialView, storage := storage, console := [] }

/-- JavaScript truthiness of a value that is `null` or a string: `null` and the empty
string are falsy. Used by `if (storedFavorites)` and `if (error)`. -/
def truthy : Option String → Bool
  | none => false
  | some s => s != ""

/-! ## AsyncStorage -/

/-- The value `AsyncStorage.getItem(key)` resolves with: `null` when the key is absent. -/
def getItem (key : String) (storage : Storage) : Option String :=
  storage.lookup key

/-- The store after `AsyncStorage.setItem(key, value)` resolved. -/
def setItem (key value : String) (storage : Storage) : Storage :=
  (key, value) :: storage.filter (fun kv => kv.1 != key)

/-! ## JSON.stringify on an array of posts -/

/-- The double quote character. -/
def dquote : Char := Char.ofNat 34

/-- The reverse solidus character. -/
def rsolidus : Char := Char.ofNat 92

/-- Lower-case hexadecimal digit of a number below 16. -/
def hexDigit (n : Nat) : Char :=
  if n < 10 then Char.ofNat (48 + n) else Char.ofNat (87 + n)

/-- The characters `JSON.stringify` emits for one character of a string value. -/
def quoteChar (c : Char) : List Char :=
  if c = dquote then [rsolidus, dquote]
  else if c = rsolidus then [rsolidus, rsolidus]
  else if c = Char.ofNat 8 then [rsolidus, 'b']
  else if c = Char.ofNat 9 then [rsolidus, 't']
  else if c = Char.ofNat 10 then [rsolidus, 'n']
  else if c = Char.ofNat 12 then [rsolidus, 'f']
  else if c = Char.ofNat 13 then [rsolidus, 'r']
  else if c.toNat < 32 then
    [rsolidus, 'u', '0', '0', hexDigit (c.toNat / 16), hexDigit (c.toNat % 16)]
  else [c]

/-- A string value as JSON text: quoted, with the escapes of `quoteChar`. -/
def quoteJSON (s : String) : List Char :=
  dquote :: (s.data.flatMap quoteChar ++ [dquote])

/-- An integer as JSON text (decimal; ids are integers of ordinary size). -/
def numberJSON (i : Int) : List Char :=
  (toString i).data

/-- One post as JSON text, keys in the order `id`, `title`, `body`. -/
def postJSON (p : Post) : List Char :=
  [Char.ofNat 123] ++ quoteJSON "id" ++ [':'] ++ numberJSON p.id
    ++ [','] ++ quoteJSON "title" ++ [':'] ++ quoteJSON p.title
    ++ [','] ++ quoteJSON "body" ++ [':'] ++ quoteJSON p.body ++ [Char.ofNat 125]

/-- The text `JSON.stringify(newFavorites)` produces (line 41): a bracketed,
comma-separated list of the posts in array order. -/
def JSONstringify (favs : List Post) : String :=
  String.mk ('[' :: (((favs.map postJSON).intersperse [',']).flatten ++ [']']))

/-! ## Operations of the component -/

/-- The message `fetchPosts` stores in `error` when the request fails (line 21). -/
def fetchErrorMessage : String := "Erro ao carregar publicações"

/-- The part of `fetchPosts` before the `await` (line 16): `setLoading(true)`. -/
def fetchPostsStart (w : World) : World :=
  { w with view := { w.view with loading := true } }

/-- The part of `fetchPosts` after the `await` (lines 18-22). `response` is the outcome
of `axios.get`: `some data` when it resolved, `none` when it threw. -/
def fetchPostsFinish (response : Option (List Post)) (w : World) : World :=
  match response with
  | some data => { w with view := { w.view with posts := data, loading := false } }
  | none => { w with view := { w.view with error := some fetchErrorMessage, loading := false } }

/-- The whole of `fetchPosts` (lines 14-24) for a given outcome of the request. -/
def fetchPosts (response : Option (List Post)) (w : World) : World :=
  fetchPostsFinish response (fetchPostsStart w)

/-- The console line of `loadFavorites` (line 34). -/
def loadErrorMessage : String := "Erro ao carregar favoritos:"

/-- The console line of `saveFavorites` (line 44). -/
def saveErrorMessage : String := "Erro ao salvar favoritos:"

/-- The part of `loadFavorites` after its `await` (lines 29-35). `read` is the outcome
of `AsyncStorage.getItem`: `none` when it threw, otherwise the value it resolved with.
`parse` is `JSON.parse`, which throws (`none`) on malformed text. -/
def loadFavoritesFinish (parse : String → Option (List Post))
    (read : Option (Option String)) (w : World) : World :=
  match read with
  | none => { w with console := w.console ++ [loadErrorMessage] }
  | some storedFavorites =>
    if truthy storedFavorites then
      match parse (storedFavorites.getD "") with
      | some favs => { w with view := { w.view with favorites := favs } }
      | none => { w with console := w.console ++ [loadErrorMessage] }
    else w

/-- The function `loadFavorites` (lines 27-36): reads the key `favorites` of the store;
`readOk` says whether the read resolved. -/
def loadFavorites (parse : String → Option (List Post)) (readOk : Bool) (w : World) : World :=
  loadFavoritesFinish parse (if readOk then some (getItem "favorites" w.storage) else none) w

/-- The function `saveFavorites` (lines 39-46); `writeOk` says whether
`AsyncStorage.setItem` resolved. `setFavorites` runs only after the awaited write,
inside the same `try`. -/
def saveFavorites (writeOk : Bool) (newFavorites : List Post) (w : World) : World :=
  if writeOk then
    { w with
      storage := setItem "favorites" (JSONstringify newFavorites) w.storage,
      view := { w.view with favorites := newFavorites } }
  else
    { w with console := w.console ++ [saveErrorMessage] }

/-- The list `toggleFavorite` computes (lines 50-56) from the current favorites and
the post. -/
def newFavorites (favorites : List Post) (post : Post) : List Post :=
  let isFavorite := favorites.any (fun fav => fav.id == post.id)
  if isFavorite then
    favorites.filter (fun fav => fav.id != post.id)
  else
    favorites ++ [post]

/-- The function `toggleFavorite` (lines 49-58): computes the new list and hands it to
`saveFavorites`. -/
def toggleFavorite (writeOk : Bool) (post : Post) (w : World) : World :=
  saveFavorites writeOk (newFavorites w.view.favorites post) w

/-- The function `toggleView` (lines 83-85). -/
def toggleView (w : World) : World :=
  { w with view := { w.view with showFavorites := !w.view.showFavorites } }

/-! ## Rendering -/

/-- One row of the list, as `renderItem` draws it (lines 67-80). -/
structure Row where
  item : Post
  isFavorite : Bool
deriving DecidableEq

/-- What the component returns (lines 87-123). -/
inductive Screen where
  | spinner
  | errorScreen (message : String)
  | listScreen (toggleLabel : String) (rows : List Row) (emptyText : Option String)
deriving DecidableEq

/-- The function `renderItem` (lines 67-80). -/
def renderItem (favorites : List Post) (item : Post) : Row :=
  { item := item, isFavorite := favorites.any (fun fav => fav.id == item.id) }

/-- The `ListEmptyComponent` prop (lines 116-120). -/
def listEmptyComponent (v : ViewState) : Option String :=
  if v.showFavorites && v.favorites.length == 0 then
    some "Nenhuma publicação favoritada."
  else none

/-- The `data` prop of the list (line 113). -/
def listData (v : ViewState) : List Post :=
  if v.showFavorites then v.favorites else v.posts

/-- The component body from line 87 on. A `FlatList` draws one row per element of
`data`, and its `ListEmptyComponent` only when `data` is empty. -/
def render (v : ViewState) : Screen :=
  if v.loading then .spinner
  else if truthy v.error then .errorScreen (v.error.getD "")
  else
    .listScreen
      (if v.showFavorites then "Ver Todas as Publicações" else "Ver Favoritos")
      ((listData v).map (renderItem v.favorites))
      (if (listData v).isEmpty then listEmptyComponent v else none)

/-- The rows a screen displays (none on the spinner and error screens). -/
def Screen.rows : Screen → List Post
  | .listScreen _ rows _ => rows.map Row.item
  | _ => []

/-- Whether a screen displays the empty-state message. -/
def Screen.showsEmptyText : Screen → Bool
  | .listScreen _ _ (some _) => true
  | _ => false

/-- Whether a screen is the list screen. -/
def Screen.isList : Screen → Bool
  | .listScreen _ _ _ => true
  | _ => false

/-- The ids of a list of posts, in order. -/
def ids (l : List Post) : List Int :=
  l.map Post.id

/-- Runs a sequence of `toggleFavorite` calls, each with its post and the outcome of
its storage write. -/
def runToggles (ops : List (Post × Bool)) (w : World) : World :=
  ops.foldl (fun acc op => toggleFavorite op.2 op.1 acc) w

/-! ## A reader for the text `JSONstringify` emits -/

/-- Value of a hexadecimal digit. -/
def hexVal (c : Char) : Option Nat :=
  if c.isDigit then some (c.toNat - 48)
  else if 97 ≤ c.toNat ∧ c.toNat ≤ 102 then some (c.toNat - 87)
  else if 65 ≤ c.toNat ∧ c.toNat ≤ 70 then some (c.toNat - 55)
  else none

/-- The character a two-character JSON escape stands for, given its second character. -/
def unescape (e : Char) : Option Char :=
  if e = dquote then some dquote
  else if e = rsolidus then some rsolidus
  else if e = '/' then some '/'
  else if e = 'b' then some (Char.ofNat 8)
  else if e = 't' then some (Char.ofNat 9)
  else if e = 'n' then some (Char.ofNat 10)
  else if e = 'f' then some (Char.ofNat 12)
  else if e = 'r' then some (Char.ofNat 13)
  else none

/-- Reads a JSON string value whose opening quote has been consumed: the decoded
characters and the input left after the closing quote. The first argument bounds the
number of characters read. -/
def readString : Nat → List Char → Option (List Char × List Char)
  | 0, _ => none
  | _ + 1, [] => none
  | n + 1, c :: rest =>
    if c = dquote then some ([], rest)
    else if c = rsolidus then
      match rest with
      | [] => none
      | e :: rest1 =>
        if e = 'u' then
          match rest1 with
          | h3 :: h2 :: h1 :: h0 :: rest2 =>
            match hexVal h3, hexVal h2, hexVal h1, hexVal h0 with
            | some a, some b, some c1, some d =>
              (readString n rest2).map
                (fun r => (Char.ofNat (((a * 16 + b) * 16 + c1) * 16 + d) :: r.1, r.2))
            | _, _, _, _ => none
          | _ => none
        else
          match unescape e with
          | some ch => (readString n rest1).map (fun r => (ch :: r.1, r.2))
          | none => none
    else (readString n rest).map (fun r => (c :: r.1, r.2))

/-- Reads a run of decimal digits onto an accumulator: the number and the input left. -/
def readDigits : Nat → List Char → Nat × List Char
  | acc, [] => (acc, [])
  | acc, c :: rest =>
    if c.isDigit then readDigits (acc * 10 + (c.toNat - 48)) rest else (acc, c :: rest)

/-- Reads a JSON integer: an optional minus sign and at least one digit. -/
def readInt (input : List Char) : Option (Int × List Char) :=
  match input with
  | [] => none
  | c :: rest =>
    if c = '-' then
      match rest with
      | d :: _ =>
        if d.isDigit then
          some (-((readDigits 0 rest).1 : Int), (readDigits 0 rest).2)
        else none
      | [] => none
    else if c.isDigit then
      some (((readDigits 0 input).1 : Int), (readDigits 0 input).2)
    else none

/-- Consumes the given literal text from the front of the input. -/
def expect : List Char → List Char → Option (List Char)
  | [], input => some input
  | _ :: _, [] => none
  | c :: lit, d :: input => if c = d then expect lit input else none

/-- Reads one post object with keys `id`, `title`, `body` in that order. -/
def readPost (input : List Char) : Option (Post × List Char) := do
  let r0 ← expect ([Char.ofNat 123] ++ quoteJSON "id" ++ [':']) input
  let (i, r1) ← readInt r0
  let r2 ← expect ([','] ++ quoteJSON "title" ++ [':', dquote]) r1
  let (t, r3) ← readString r2.length r2
  let r4 ← expect ([','] ++ quoteJSON "body" ++ [':', dquote]) r3
  let (b, r5) ← readString r4.length r4
  let r6 ← expect [Char.ofNat 125] r5
  pure ({ id := i, title := String.mk t, body := String.mk b }, r6)

/-- Reads the posts of a non-empty array after its opening bracket, up to and
including the closing bracket, which must end the input. The first argument bounds
the number of posts read. -/
def readPosts : Nat → List Char → Option (List Post)
  | 0, _ => none
  | n + 1, input =>
    match readPost input with
    | none => none
    | some (post, rest) =>
      match rest with
      | [c] => if c = ']' then some [post] else none
      | c :: rest1 => if c = ',' then (readPosts n rest1).map (fun l => post :: l) else none
      | [] => none

/-- A reader for JSON arrays of posts in the layout `JSONstringify` writes; any other
text is rejected, as `JSON.parse` rejects malformed text by throwing. -/
def parsePosts (text : String) : Option (List Post) :=
  match text.data with
  | '[' :: rest => if rest = [']'] then some [] else readPosts rest.length rest
  | _ => none

/-! ## Lemmas on the toggled list -/

theorem any_id_eq_false (f : List Post) (p : Post) (h : ∀ q ∈ f, q.id ≠ p.id) :
    f.any (fun fav => fav.id == p.id) = false := by
  rw [List.any_eq_false]
  intro q hq
  simpa using h q hq

theorem any_id_eq_true (f : List Post) (p : Post) (h : ∃ q ∈ f, q.id = p.id) :
    f.any (fun fav => fav.id == p.id) = true := by
  rw [List.any_eq_true]
  obtain ⟨q, hq, hid⟩ := h
  exact ⟨q, hq, by simpa using hid⟩

theorem newFavorites_absent (f : List Post) (p : Post) (h : ∀ q ∈ f, q.id ≠ p.id) :
    newFavorites f p = f ++ [p] := by
  simp only [newFavorites, any_id_eq_false f p h]
  rfl

theorem newFavorites_present (f : List Post) (p : Post) (h : ∃ q ∈ f, q.id = p.id) :
    newFavorites f p = f.filter (fun fav => fav.id != p.id) := by
  simp only [newFavorites, any_id_eq_true f p h]
  rfl

theorem filter_absent (f : List Post) (p : Post) (h : ∀ q ∈ f, q.id ≠ p.id) :
    f.filter (fun fav => fav.id != p.id) = f := by
  rw [List.filter_eq_self]
  intro q hq
  simpa using h q hq

theorem filter_ids_nodup (f : List Post) (p : Post) (h : (ids f).Nodup) :
    (ids (f.filter (fun fav => fav.id != p.id))).Nodup := by
  unfold ids at *
  exact h.sublist ((List.filter_sublist f).map Post.id)

theorem newFavorites_ids_nodup (f : List Post) (p : Post) (h : (ids f).Nodup) :
    (ids (newFavorites f p)).Nodup := by
  by_cases hp : ∃ q ∈ f, q.id = p.id
  · rw [newFavorites_present f p hp]
    exact filter_ids_nodup f p h
  · have hp' : ∀ q ∈ f, q.id ≠ p.id := fun q hq hid => hp ⟨q, hq, hid⟩
    rw [newFavorites_absent f p hp']
    unfold ids at *
    rw [List.map_append, List.nodup_append]
    refine ⟨h, by simp, ?_⟩
    intro a ha hb
    simp only [List.map_cons, List.map_nil, List.mem_singleton] at hb
    obtain ⟨q, hq, hid⟩ := List.mem_map.1 ha
    exact hp' q hq (hid.trans hb)

theorem filter_length_of_nodup (f : List Post) (p : Post) (h : (ids f).Nodup)
    (hp : ∃ q ∈ f, q.id = p.id) :
    (f.filter (fun fav => fav.id != p.id)).length + 1 = f.length := by
  induction f with
  | nil => obtain ⟨q, hq, _⟩ := hp; cases hq
  | cons a l ih =>
    unfold ids at h ih
    rw [List.map_cons, List.nodup_cons] at h
    by_cases ha : a.id = p.id
    · have hl : ∀ q ∈ l, q.id ≠ p.id := by
        intro q hq hid
        exact h.1 (List.mem_map.2 ⟨q, hq, hid.trans ha.symm⟩)
      have hfa : (a.id != p.id) = false := by simpa using ha
      rw [List.filter_cons_of_neg (by simp [hfa]), filter_absent l p hl]
      rfl
    · have hfa : (a.id != p.id) = true := by simpa using ha
      have hcons : (a :: l).filter (fun fav => fav.id != p.id)
          = a :: l.filter (fun fav => fav.id != p.id) := by
        simp only [List.filter_cons, hfa, if_true]
      rw [hcons]
      have hp' : ∃ q ∈ l, q.id = p.id := by
        obtain ⟨q, hq, hid⟩ := hp
        rcases List.mem_cons.1 hq with rfl | hq'
        · exact absurd hid ha
        · exact ⟨q, hq', hid⟩
      simp only [List.length_cons]
      rw [ih h.2 hp']

theorem runToggles_ids_nodup (ops : List (Post × Bool)) (w : World)
    (h : (ids w.view.favorites).Nodup) :
    (ids (runToggles ops w).view.favorites).Nodup := by
  induction ops generalizing w with
  | nil => exact h
  | cons op rest ih =>
    unfold runToggles
    rw [List.foldl_cons]
    apply ih
    unfold toggleFavorite saveFavorites
    cases op.2
    · exact h
    · exact newFavorites_ids_nodup _ _ h

/-! ## Claims on `toggleFavorite` -/

/-- C1: when no entry of the favorites list `f` has the id of `p`, the list
`toggleFavorite` computes is `f` with `p` appended as last element: it contains
`p`, has length `|f| + 1`, and every entry of `f` keeps its position. It is the
list handed to `saveFavorites`. -/
theorem toggleFavorite_absent_appends (f : List Post) (p : Post)
    (h : ∀ q ∈ f, q.id ≠ p.id) :
    newFavorites f p = f ++ [p] ∧
    p ∈ newFavorites f p ∧
    (newFavorites f p).length = f.length + 1 ∧
    (newFavorites f p).getLast? = some p ∧
    (∀ i, i < f.length → (newFavorites f p)[i]? = f[i]?) ∧
    (∀ (writeOk : Bool) (w : World), w.view.favorites = f →
      toggleFavorite writeOk p w = saveFavorites writeOk (f ++ [p]) w) := by
  have e := newFavorites_absent f p h
  refine ⟨e, ?_, ?_, ?_, ?_, ?_⟩
  · rw [e]; simp
  · rw [e]; simp
  · rw [e]; simp
  · intro i hi
    rw [e, List.getElem?_append_left hi]
  · intro writeOk w hw
    unfold toggleFavorite
    rw [hw, e]

theorem toggleFavorite_absent_appends_witness :
    newFavorites [⟨2, "t2", "b2"⟩] ⟨5, "t5", "b5"⟩ = [⟨2, "t2", "b2"⟩, ⟨5, "t5", "b5"⟩] ∧
    (newFavorites [⟨2, "t2", "b2"⟩] ⟨5, "t5", "b5"⟩).length = 2 :=
  have h := toggleFavorite_absent_appends [⟨2, "t2", "b2"⟩] ⟨5, "t5", "b5"⟩ (by decide)
  ⟨h.1, h.2.2.1⟩

/-- C2: when some entry of the favorites list `f` has the id of `p`, the list
`toggleFavorite` computes has no entry with that id, is a sublist of `f` (the
remaining entries in their original relative order) that keeps every entry of
another id with its multiplicity, and has length `|f| - 1` when the ids of `f` are
pairwise distinct. -/
theorem toggleFavorite_present_removes (f : List Post) (p : Post)
    (h : ∃ q ∈ f, q.id = p.id) :
    (∀ q ∈ newFavorites f p, q.id ≠ p.id) ∧
    (newFavorites f p).Sublist f ∧
    (∀ q : Post, q.id ≠ p.id → (newFavorites f p).count q = f.count q) ∧
    newFavorites f p = f.filter (fun fav => fav.id != p.id) ∧
    ((ids f).Nodup → (newFavorites f p).length = f.length - 1) := by
  have e := newFavorites_present f p h
  refine ⟨?_, ?_, ?_, e, ?_⟩
  · intro q hq
    rw [e, List.mem_filter] at hq
    simpa using hq.2
  · rw [e]; exact List.filter_sublist f
  · intro q hq
    rw [e, List.count_filter]
    simpa using hq
  · intro hn
    rw [e]
    have := filter_length_of_nodup f p hn h
    omega

theorem toggleFavorite_present_removes_witness :
    newFavorites [⟨2, "t2", "b2"⟩, ⟨5, "t5", "b5"⟩, ⟨7, "t7", "b7"⟩] ⟨5, "t5", "b5"⟩
      = [⟨2, "t2", "b2"⟩, ⟨7, "t7", "b7"⟩] :=
  (toggleFavorite_present_removes [⟨2, "t2", "b2"⟩, ⟨5, "t5", "b5"⟩, ⟨7, "t7", "b7"⟩]
    ⟨5, "t5", "b5"⟩ ⟨⟨5, "t5", "b5"⟩, by decide, rfl⟩).2.2.2.1.trans (by decide)

/-- C3: when no entry of the favorites list `f` has the id of `p`, toggling `p`
twice in succession, the second toggle computed on the result of the first, gives
back `f` itself, element for element in the same order; with both storage writes
succeeding the `favorites` cell of the component is back at its starting value. -/
theorem toggleFavorite_twice_restores (f : List Post) (p : Post)
    (h : ∀ q ∈ f, q.id ≠ p.id) :
    newFavorites (newFavorites f p) p = f ∧
    (∀ w : World, w.view.favorites = f →
      (toggleFavorite true p (toggleFavorite true p w)).view.favorites = f) := by
  have key : newFavorites (newFavorites f p) p = f := by
    rw [newFavorites_absent f p h,
      newFavorites_present (f ++ [p]) p ⟨p, by simp, rfl⟩, List.filter_append,
      filter_absent f p h]
    simp
  refine ⟨key, ?_⟩
  intro w hw
  simp only [toggleFavorite, saveFavorites, if_true]
  rw [hw]
  exact key

theorem toggleFavorite_twice_restores_witness :
    newFavorites (newFavorites [⟨2, "t2", "b2"⟩] ⟨5, "t5", "b5"⟩) ⟨5, "t5", "b5"⟩
      = [⟨2, "t2", "b2"⟩] :=
  (toggleFavorite_twice_restores [⟨2, "t2", "b2"⟩] ⟨5, "t5", "b5"⟩ (by decide)).1

/-- C4: no two favorites share an id. If the ids of `f` are pairwise distinct then
so are the ids of the list `toggleFavorite` computes from `f` and any post `p`;
hence the ids of `favorites` are pairwise distinct in every state reached from the
initial (empty) favorites by any sequence of `toggleFavorite` calls, whatever the
outcomes of their storage writes. -/
theorem favorites_ids_distinct (f : List Post) (p : Post) (h : (ids f).Nodup) :
    (ids (newFavorites f p)).Nodup ∧
    (∀ (writeOk : Bool) (w : World), w.view.favorites = f →
      (ids (toggleFavorite writeOk p w).view.favorites).Nodup) ∧
    (∀ (storage : Storage) (ops : List (Post × Bool)),
      (ids (runToggles ops (initialWorld storage)).view.favorites).Nodup) := by
  refine ⟨newFavorites_ids_nodup f p h, ?_, ?_⟩
  · intro writeOk w hw
    have := runToggles_ids_nodup [(p, writeOk)] w (hw ▸ h)
    simpa [runToggles] using this
  · intro storage ops
    exact runToggles_ids_nodup ops (initialWorld storage) List.nodup_nil

theorem favorites_ids_distinct_witness :
    (ids (newFavorites [⟨2, "t2", "b2"⟩, ⟨5, "t5", "b5"⟩] ⟨2, "other", "x"⟩)).Nodup :=
  (favorites_ids_distinct [⟨2, "t2", "b2"⟩, ⟨5, "t5", "b5"⟩] ⟨2, "other", "x"⟩
    (by decide)).1

/-! ## Lemmas on the store and on the operations -/

theorem getItem_setItem (key value : String) (storage : Storage) :
    getItem key (setItem key value storage) = some value := by
  simp [getItem, setItem, List.lookup]

theorem truthy_JSONstringify (favs : List Post) :
    truthy (some (JSONstringify favs)) = true := by
  have hne : JSONstringify favs ≠ "" := by
    intro h
    have hd := congrArg String.data h
    simp [JSONstringify] at hd
  simpa [truthy] using hne

theorem newFavorites_ne (f : List Post) (p : Post) : newFavorites f p ≠ f := by
  by_cases hp : ∃ q ∈ f, q.id = p.id
  · rw [newFavorites_present f p hp]
    intro h
    rw [List.filter_eq_self] at h
    obtain ⟨q, hq, hid⟩ := hp
    have := h q hq
    simp [hid] at this
  · have hp' : ∀ q ∈ f, q.id ≠ p.id := fun q hq hid => hp ⟨q, hq, hid⟩
    rw [newFavorites_absent f p hp']
    intro h
    have := congrArg List.length h
    simp at this

theorem loadFavorites_after_save (parse : String → Option (List Post)) (f : List Post)
    (view : ViewState) (storage : Storage) (console : List String)
    (hparse : parse (JSONstringify f) = some f) :
    (loadFavorites parse true
      { view := view, storage := setItem "favorites" (JSONstringify f) storage,
        console := console }).view.favorites = f := by
  simp only [loadFavorites, loadFavoritesFinish, if_true, getItem_setItem,
    truthy_JSONstringify, Option.getD_some, hparse]

theorem fetchPosts_success_keeps_error (ps : List Post) (w : World) :
    (fetchPosts (some ps) w).view.error = w.view.error ∧
    (fetchPosts (some ps) w).view.loading = false ∧
    (fetchPosts (some ps) w).view.posts = ps :=
  ⟨rfl, rfl, rfl⟩

theorem render_error_after_retry (ps : List Post) (w : World)
    (he : truthy w.view.error = true) :
    render (fetchPosts (some ps) w).view = .errorScreen (w.view.error.getD "") := by
  simp [render, fetchPosts, fetchPostsFinish, fetchPostsStart, he]

/-! ## Claims on fetching, persistence and rendering -/

/-- C5 (evaluation of the code): after a failed fetch, a retry whose request succeeds
with one post stores the post in `posts` and clears `loading`, but `error` keeps the
message of the failed fetch, so the component still returns the error screen and not
the list screen. -/
theorem retry_success_shows_error_screen :
    (fetchPosts none (initialWorld [])).view.loading = false ∧
    (fetchPosts none (initialWorld [])).view.error = some fetchErrorMessage ∧
    (fetchPosts (some [⟨1, "A", "B"⟩]) (fetchPosts none (initialWorld []))).view.posts
      = [⟨1, "A", "B"⟩] ∧
    (fetchPosts (some [⟨1, "A", "B"⟩]) (fetchPosts none (initialWorld []))).view.error
      = some fetchErrorMessage ∧
    render (fetchPosts (some [⟨1, "A", "B"⟩]) (fetchPosts none (initialWorld []))).view
      = .errorScreen fetchErrorMessage ∧
    (render (fetchPosts (some [⟨1, "A", "B"⟩])
      (fetchPosts none (initialWorld []))).view).isList = false := by
  decide

/-- C6 (as stated, refuted): with no favorites and a failing storage write, the
`favorites` cell after `toggleFavorite` is not the newly toggled list. -/
theorem toggleFavorite_failed_write_not_toggled :
    (toggleFavorite false ⟨1, "A", "B"⟩
        (fetchPosts (some [⟨1, "A", "B"⟩]) (initialWorld []))).view.favorites
      ≠ newFavorites (fetchPosts (some [⟨1, "A", "B"⟩]) (initialWorld [])).view.favorites
          ⟨1, "A", "B"⟩ := by
  decide

/-- C6 (amended): when the storage write of `saveFavorites` fails, `toggleFavorite`
leaves every state cell as it was, so `favorites` is still the list before the
toggle, which differs from the newly toggled list; the store is unchanged, the
screen is the same (no error is shown), and the failure is only written to the
console. -/
theorem toggleFavorite_failed_write_keeps_favorites (p : Post) (w : World) :
    (toggleFavorite false p w).view = w.view ∧
    (toggleFavorite false p w).view.favorites = w.view.favorites ∧
    (toggleFavorite false p w).view.favorites ≠ newFavorites w.view.favorites p ∧
    (toggleFavorite false p w).view.error = w.view.error ∧
    render (toggleFavorite false p w).view = render w.view ∧
    (toggleFavorite false p w).storage = w.storage ∧
    (toggleFavorite false p w).console = w.console ++ [saveErrorMessage] := by
  refine ⟨rfl, rfl, ?_, rfl, rfl, rfl, rfl⟩
  show w.view.favorites ≠ newFavorites w.view.favorites p
  exact fun h => newFavorites_ne _ _ h.symm

/-- C7: when the store holds no value under the key `favorites`, `loadFavorites`
changes nothing and logs nothing; run at app start, before or after the fetch has
completed, it leaves `favorites` the empty list and the `error` cell as it was. -/
theorem loadFavorites_absent_is_empty (parse : String → Option (List Post))
    (storage : Storage) (h : getItem "favorites" storage = none) :
    (∀ w : World, w.storage = storage → loadFavorites parse true w = w) ∧
    (loadFavorites parse true (initialWorld storage)).view.favorites = [] ∧
    (loadFavorites parse true (initialWorld storage)).view.error = none ∧
    (loadFavorites parse true (initialWorld storage)).console = [] ∧
    (∀ r : Option (List Post),
      (loadFavorites parse true (fetchPosts r (initialWorld storage))).view.favorites = [] ∧
      (loadFavorites parse true (fetchPosts r (initialWorld storage))).view.error
        = (fetchPosts r (initialWorld storage)).view.error ∧
      (loadFavorites parse true (fetchPosts r (initialWorld storage))).console = []) := by
  have key : ∀ w : World, w.storage = storage → loadFavorites parse true w = w := by
    intro w hw
    simp [loadFavorites, loadFavoritesFinish, hw, h, truthy]
  refine ⟨key, ?_, ?_, ?_, ?_⟩
  · rw [key _ rfl]; rfl
  · rw [key _ rfl]; rfl
  · rw [key _ rfl]; rfl
  · intro r
    have hs : (fetchPosts r (initialWorld storage)).storage = storage := by
      cases r <;> rfl
    rw [key _ hs]
    cases r <;> exact ⟨rfl, rfl, rfl⟩

theorem loadFavorites_absent_is_empty_witness :
    (loadFavorites parsePosts true (initialWorld [("theme", "dark")])).view.favorites = [] ∧
    (loadFavorites parsePosts true (initialWorld [("theme", "dark")])).view.error = none :=
  have h := loadFavorites_absent_is_empty parsePosts [("theme", "dark")] (by decide)
  ⟨h.2.1, h.2.2.1⟩

/-- C8: for every favorites list `f` that `JSON.parse` reads back from its
serialization, a successful `saveFavorites f` followed by `loadFavorites`, in the
same session or after a restart over the store that was written, sets `favorites`
to `f` in the same order, and the favorites view then lists `f` in that order; in
particular favorites added as `p2` then `p5` are reloaded as `p2` then `p5`. -/
theorem save_then_load_roundtrip (parse : String → Option (List Post)) (f : List Post)
    (w : World) (hparse : parse (JSONstringify f) = some f) :
    (loadFavorites parse true (saveFavorites true f w)).view.favorites = f ∧
    (loadFavorites parse true
      (initialWorld (saveFavorites true f w).storage)).view.favorites = f ∧
    listData (toggleView (loadFavorites parse true
      (initialWorld (saveFavorites true f w).storage))).view = f ∧
    (∀ p2 p5 : Post, p2.id ≠ p5.id → w.view.favorites = [] → f = [p2, p5] →
      (runToggles [(p2, true), (p5, true)] w).view.favorites = [p2, p5] ∧
      (loadFavorites parse true
        (initialWorld (runToggles [(p2, true), (p5, true)] w).storage)).view.favorites
        = [p2, p5]) := by
  have hrestart : (loadFavorites parse true
      (initialWorld (saveFavorites true f w).storage)).view.favorites = f := by
    simp only [saveFavorites, if_true, initialWorld]
    exact loadFavorites_after_save parse f _ _ _ hparse
  refine ⟨?_, hrestart, ?_, ?_⟩
  · simp only [saveFavorites, if_true]
    exact loadFavorites_after_save parse f _ _ _ hparse
  · have hshow : (loadFavorites parse true
        (initialWorld (saveFavorites true f w).storage)).view.showFavorites = false := by
      simp only [loadFavorites, loadFavoritesFinish, if_true]
      split
      · split <;> rfl
      · rfl
    simp only [listData, toggleView, hshow, Bool.not_false, if_true]
    exact hrestart
  · intro p2 p5 hne hw hf
    have h1 : newFavorites [] p2 = [p2] := rfl
    have h2 : newFavorites [p2] p5 = [p2, p5] := by
      rw [newFavorites_absent [p2] p5 (by
        intro q hq
        rw [List.mem_singleton] at hq
        rw [hq]; exact hne)]
      rfl
    have hrun : runToggles [(p2, true), (p5, true)] w
        = saveFavorites true [p2, p5] (saveFavorites true [p2] w) := by
      simp only [runToggles, List.foldl_cons, List.foldl_nil, toggleFavorite, hw, h1]
      simp only [saveFavorites, if_true, h2]
    rw [hrun]
    refine ⟨by simp only [saveFavorites, if_true], ?_⟩
    simp only [saveFavorites, if_true, initialWorld]
    rw [hf] at hparse
    exact loadFavorites_after_save parse [p2, p5] _ _ _ hparse

theorem save_then_load_roundtrip_witness :
    (loadFavorites parsePosts true
      (initialWorld (saveFavorites true [⟨2, "t2", "b2"⟩, ⟨5, "t5", "b5"⟩]
        (initialWorld [])).storage)).view.favorites
      = [⟨2, "t2", "b2"⟩, ⟨5, "t5", "b5"⟩] :=
  (save_then_load_roundtrip parsePosts [⟨2, "t2", "b2"⟩, ⟨5, "t5", "b5"⟩]
    (initialWorld []) (by decide)).2.1

/-- C9: the two startup operations write disjoint parts of the state. Completion of
`fetchPosts`, with success or failure, leaves `favorites`, `showFavorites`, the store
and the console as they were; completion of `loadFavorites`, whatever the outcome of
the read, leaves `posts`, `loading`, `error`, `showFavorites` and the store as they
were; and the final state is the same whichever of the two completes first. -/
theorem startup_operations_commute (parse : String → Option (List Post))
    (r : Option (List Post)) (read : Option (Option String)) (readOk : Bool) (w : World) :
    ((fetchPostsFinish r w).view.favorites = w.view.favorites ∧
      (fetchPostsFinish r w).view.showFavorites = w.view.showFavorites ∧
      (fetchPostsFinish r w).storage = w.storage ∧
      (fetchPostsFinish r w).console = w.console) ∧
    ((loadFavoritesFinish parse read w).view.posts = w.view.posts ∧
      (loadFavoritesFinish parse read w).view.loading = w.view.loading ∧
      (loadFavoritesFinish parse read w).view.error = w.view.error ∧
      (loadFavoritesFinish parse read w).view.showFavorites = w.view.showFavorites ∧
      (loadFavoritesFinish parse read w).storage = w.storage) ∧
    fetchPostsFinish r (loadFavoritesFinish parse read w)
      = loadFavoritesFinish parse read (fetchPostsFinish r w) ∧
    fetchPostsFinish r (loadFavorites parse readOk w)
      = loadFavorites parse readOk (fetchPostsFinish r w) ∧
    fetchPosts r (loadFavorites parse readOk w)
      = loadFavorites parse readOk (fetchPosts r w) := by
  have hframe : (loadFavoritesFinish parse read w).view.posts = w.view.posts ∧
      (loadFavoritesFinish parse read w).view.loading = w.view.loading ∧
      (loadFavoritesFinish parse read w).view.error = w.view.error ∧
      (loadFavoritesFinish parse read w).view.showFavorites = w.view.showFavorites ∧
      (loadFavoritesFinish parse read w).storage = w.storage := by
    cases read with
    | none => exact ⟨rfl, rfl, rfl, rfl, rfl⟩
    | some stored =>
      simp only [loadFavoritesFinish]
      by_cases ht : truthy stored = true
      · simp only [ht, if_true]
        cases parse (stored.getD "") <;> exact ⟨rfl, rfl, rfl, rfl, rfl⟩
      · simp only [ht, if_false]
        exact ⟨rfl, rfl, rfl, rfl, rfl⟩
  have hcomm : ∀ (rd : Option (Option String)) (u : World),
      fetchPostsFinish r (loadFavoritesFinish parse rd u)
        = loadFavoritesFinish parse rd (fetchPostsFinish r u) := by
    intro rd u
    cases rd with
    | none => cases r <;> rfl
    | some stored =>
      simp only [loadFavoritesFinish]
      by_cases ht : truthy stored = true
      · simp only [ht, if_true]
        cases parse (stored.getD "") <;> cases r <;> rfl
      · simp only [ht, if_false]
        rfl
  have hstore : (fetchPostsFinish r w).storage = w.storage := by cases r <;> rfl
  have hstart : ∀ (rd : Option (Option String)) (u : World),
      fetchPostsStart (loadFavoritesFinish parse rd u)
        = loadFavoritesFinish parse rd (fetchPostsStart u) := by
    intro rd u
    cases rd with
    | none => rfl
    | some stored =>
      simp only [loadFavoritesFinish]
      by_cases ht : truthy stored = true
      · simp only [ht, if_true]
        cases parse (stored.getD "") <;> rfl
      · simp only [ht, if_false]
        rfl
  refine ⟨?_, hframe, hcomm read w, ?_, ?_⟩
  · cases r <;> exact ⟨rfl, rfl, rfl, rfl⟩
  · unfold loadFavorites
    rw [hstore]
    exact hcomm _ w
  · unfold fetchPosts loadFavorites
    have hs1 : (fetchPostsStart w).storage = w.storage := rfl
    have hs2 : (fetchPostsFinish r (fetchPostsStart w)).storage = w.storage := by
      cases r <;> rfl
    rw [hs2, hstart, hcomm]

/-- C10: in every ready state (`loading` false, `error` falsy) the component returns
the list screen; its rows are exactly `posts` when `showFavorites` is false and
exactly `favorites` when it is true, and the empty-state message is displayed exactly
when `showFavorites` is true and `favorites` is empty. Consequently, after a fetch of
a single post `p` with no stored favorites the all view shows the one row `p`;
toggling `p` (the storage write succeeding) and switching view shows the single row
`p`; toggling `p` again leaves no rows and the empty-state message. -/
theorem ready_screen_rows (v : ViewState) (hl : v.loading = false)
    (he : truthy v.error = false) :
    (render v).isList = true ∧
    (render v).rows = (if v.showFavorites then v.favorites else v.posts) ∧
    ((render v).showsEmptyText = true ↔ (v.showFavorites = true ∧ v.favorites = [])) ∧
    (∀ (parse : String → Option (List Post)) (storage : Storage) (p : Post),
      getItem "favorites" storage = none →
      (render (fetchPosts (some [p])
          (loadFavorites parse true (initialWorld storage))).view).rows = [p] ∧
      (render (toggleView (toggleFavorite true p (fetchPosts (some [p])
          (loadFavorites parse true (initialWorld storage))))).view).rows = [p] ∧
      (render (toggleView (toggleFavorite true p (fetchPosts (some [p])
          (loadFavorites parse true (initialWorld storage))))).view).showsEmptyText
        = false ∧
      (render (toggleFavorite true p (toggleView (toggleFavorite true p
          (fetchPosts (some [p])
            (loadFavorites parse true (initialWorld storage)))))).view).rows = [] ∧
      (render (toggleFavorite true p (toggleView (toggleFavorite true p
          (fetchPosts (some [p])
            (loadFavorites parse true (initialWorld storage)))))).view).showsEmptyText
        = true) := by
  have hrows : ∀ (fs l : List Post), (l.map (renderItem fs)).map Row.item = l := by
    intro fs l
    rw [List.map_map]
    exact List.map_id l
  refine ⟨?_, ?_, ?_, ?_⟩
  · simp [render, hl, he, Screen.isList]
  · unfold render
    rw [hl, he]
    exact hrows _ _
  · cases hs : v.showFavorites
    · simp [render, hl, he, Screen.showsEmptyText, listEmptyComponent, listData, hs]
    · cases hf : v.favorites with
      | nil =>
        simp [render, hl, he, Screen.showsEmptyText, listEmptyComponent, listData, hs, hf]
      | cons a l =>
        simp [render, hl, he, Screen.showsEmptyText, listEmptyComponent, listData, hs, hf]
  · intro parse storage p hs
    have hload : loadFavorites parse true (initialWorld storage) = initialWorld storage := by
      simp [loadFavorites, loadFavoritesFinish, initialWorld, hs, truthy]
    rw [hload]
    have h1 : newFavorites [] p = [p] := rfl
    have h2 : newFavorites [p] p = [] := by
      rw [newFavorites_present [p] p ⟨p, by simp, rfl⟩]
      simp
    simp [render, fetchPosts, fetchPostsFinish, fetchPostsStart, initialWorld, initialView,
      toggleView, toggleFavorite, saveFavorites, truthy, Screen.rows, Screen.showsEmptyText,
      listData, listEmptyComponent, h1, h2, renderItem]

theorem ready_screen_rows_witness :
    (render { posts := [⟨1, "A", "B"⟩, ⟨2, "C", "D"⟩], favorites := [⟨2, "C", "D"⟩],
              loading := false, error := none, showFavorites := true }).rows
      = [⟨2, "C", "D"⟩] :=
  (ready_screen_rows ⟨[⟨1, "A", "B"⟩, ⟨2, "C", "D"⟩], [⟨2, "C", "D"⟩], false, none, true⟩
    rfl rfl).2.1

end App
